import Mathlib

/-!
Shallow embedding of the moneypocket allowance-ledger application
(source files src/db.py and src/app.py) together with theorems checking
the natural-language specification against it.

The SQLite store is modelled as an explicit record of row lists; every
database function of db.py becomes a pure function from store to store
(or to a query result), and the two validating request handlers of
app.py become pure functions from parsed form fields and a store to a
result record holding the post store and the optional validation error.
Timestamps are kept as the ISO strings the code stores and compares
(SQLite compares TEXT bytewise, which on these ASCII timestamps is the
lexicographic order on the character sequences modelled below).
-/

namespace MoneyPocket

/-! ### Bytewise lexicographic order on strings (the SQLite TEXT order) -/

/-- Lexicographic less-or-equal on character lists, comparing code points. -/
def lexLeB : List Char → List Char → Bool
  | [], _ => true
  | _ :: _, [] => false
  | a :: as, b :: bs =>
    if a.toNat < b.toNat then true
    else if b.toNat < a.toNat then false
    else lexLeB as bs

/-- String comparison as SQLite performs it on the stored ISO timestamps. -/
def strLeB (a b : String) : Bool := lexLeB a.data b.data

/-- Strict version of `strLeB`. -/
def strLtB (a b : String) : Bool := !(strLeB b a)

def strLe (a b : String) : Prop := strLeB a b = true

def strLt (a b : String) : Prop := strLtB a b = true

instance (a b : String) : Decidable (strLe a b) := inferInstanceAs (Decidable (_ = true))

instance (a b : String) : Decidable (strLt a b) := inferInstanceAs (Decidable (_ = true))


/-! ### Data model: the rows of the three tables of db.py -/

/-- A row of the `transactions` table. -/
structure Txn where
  id : Nat
  userId : Nat
  occurredAt : String
  movement : String
  amount : Int
  category : Option String
  memo : Option String
deriving DecidableEq

/-- A row of the `categories` table; `userId = none` is a shared category. -/
structure Cat where
  id : String
  userId : Option Nat
  label : String
  displayOrder : Int
deriving DecidableEq

/-- A row of the `users` table. -/
structure UserRow where
  id : Nat
  username : String
  passwordHash : String
  createdAt : String
deriving DecidableEq

/-- The whole SQLite store; `nextTxnId` models the AUTOINCREMENT counter. -/
structure Store where
  users : List UserRow
  transactions : List Txn
  categories : List Cat
  nextTxnId : Nat
deriving DecidableEq

def emptyStore : Store := { users := [], transactions := [], categories := [], nextTxnId := 1 }

/-- db.py DEFAULT_CATEGORIES. -/
def DEFAULT_CATEGORIES : List (String × String) :=
  [("food", "食べ物"), ("fun", "遊び"), ("stationery", "文具"),
   ("oshikatsu", "推し活"), ("other", "その他")]

/-- db.py init_db: after ensuring the schema, inserts the default shared
categories with display_order equal to their index, but only when no
shared (NULL-owner) category row exists yet. -/
def init_db (s : Store) : Store :=
  if (s.categories.filter (fun c => c.userId == none)).length = 0 then
    { s with categories :=
        s.categories ++ DEFAULT_CATEGORIES.enum.map (fun p =>
          { id := p.2.1, userId := none, label := p.2.2, displayOrder := (p.1 : Int) }) }
  else s

/-- db.py insert_transaction: appends a fresh row, occurred_at given by the
caller (datetime.now in the source). -/
def insert_transaction (s : Store) (user_id : Nat) (now : String) (movement : String)
    (amount : Int) (category : Option String) (memo : Option String) : Store :=
  { s with
    transactions := s.transactions ++
      [{ id := s.nextTxnId, userId := user_id, occurredAt := now, movement := movement,
         amount := amount, category := category, memo := memo }],
    nextTxnId := s.nextTxnId + 1 }

/-- db.py fetch_balance: COALESCE(SUM(CASE WHEN movement = increase THEN amount
ELSE -amount END), 0) over the rows of the user. -/
def fetch_balance (s : Store) (u : Nat) : Int :=
  ((s.transactions.filter (fun t => t.userId == u)).map
    (fun t => if t.movement == "increase" then t.amount else -t.amount)).sum

/-! ### Month window arithmetic of fetch_transactions_by_month and
fetch_category_totals (datetime.fromisoformat plus replace in the source) -/

/-- Two-digit zero padding, as datetime.isoformat renders months and days. -/
def pad2 (n : Nat) : String := if n < 10 then "0" ++ toString n else toString n

/-- Four-digit zero padding, as datetime.isoformat renders years. -/
def pad4 (n : Nat) : String :=
  if n < 10 then "000" ++ toString n
  else if n < 100 then "00" ++ toString n
  else if n < 1000 then "0" ++ toString n
  else toString n

/-- The ISO string of the first instant of a month, exactly the value
start.isoformat(timespec=seconds) computed in db.py. -/
def monthStartStr (y m : Nat) : String := pad4 y ++ "-" ++ pad2 m ++ "-01T00:00:00"

/-- The month-boundary roll of db.py: December advances to January of the
next year, any other month just increments. -/
def nextMonth (y m : Nat) : Nat × Nat := if m = 12 then (y + 1, 1) else (y, m + 1)

/-- Ordering of transactions by occurred_at, used by ORDER BY occurred_at ASC. -/
def txnLe (a b : Txn) : Prop := strLe a.occurredAt b.occurredAt

instance : DecidableRel txnLe := fun _ _ => inferInstanceAs (Decidable (_ = true))

/-- db.py fetch_transactions_by_month: the rows of the user with occurred_at
in the half-open window of the month, ordered ascending by occurred_at. -/
def fetch_transactions_by_month (s : Store) (u : Nat) (y m : Nat) : List Txn :=
  let start := monthStartStr y m
  let stop := monthStartStr (nextMonth y m).1 (nextMonth y m).2
  List.insertionSort txnLe
    (s.transactions.filter (fun t =>
      t.userId == u && strLeB start t.occurredAt && strLtB t.occurredAt stop))

/-! ### Category queries and mutations of db.py -/

/-- Ordering of categories used by ORDER BY display_order, id. -/
def catLe (a b : Cat) : Prop :=
  a.displayOrder < b.displayOrder ∨ (a.displayOrder = b.displayOrder ∧ strLe a.id b.id)

instance : DecidableRel catLe := fun _ _ => inferInstanceAs (Decidable (_ ∨ _))

/-- db.py get_all_categories: shared rows plus the rows owned by the user,
ordered by (display_order, id). -/
def get_all_categories (s : Store) (u : Nat) : List Cat :=
  List.insertionSort catLe
    (s.categories.filter (fun c => c.userId == none || c.userId == some u))

/-- db.py add_category: computes the maximal display_order over the shared
and owned rows (COALESCE default -1) and inserts a fresh owned row; the
categories table carries no uniqueness constraint, so the insert always
succeeds, even for an id that already exists. -/
def add_category (s : Store) (u : Nat) (category_id label : String) : Store :=
  let max_order :=
    ((s.categories.filter (fun c => c.userId == some u || c.userId == none)).map
      (fun c => c.displayOrder)).foldl max (-1)
  { s with categories := s.categories ++
      [{ id := category_id, userId := some u, label := label, displayOrder := max_order + 1 }] }

/-- db.py update_category: relabels only a row matched by id and owner. -/
def update_category (s : Store) (u : Nat) (category_id new_label : String) : Store :=
  { s with categories := s.categories.map (fun c =>
      if c.id = category_id ∧ c.userId = some u then { c with label := new_label } else c) }

/-- db.py delete_category: first rewrites the category of every transaction
of the user referencing the id to other, then deletes the rows matched by
id and owner. -/
def delete_category (s : Store) (u : Nat) (category_id : String) : Store :=
  { s with
    transactions := s.transactions.map (fun t =>
      if t.userId = u ∧ t.category = some category_id
      then { t with category := some "other" } else t),
    categories := s.categories.filter (fun c =>
      ¬ (c.id = category_id ∧ c.userId = some u)) }

/-! ### Transaction lookup and mutation of db.py -/

/-- db.py fetch_transaction_by_id: lookup scoped by id and owner. -/
def fetch_transaction_by_id (s : Store) (u : Nat) (tid : Nat) : Option Txn :=
  s.transactions.find? (fun t => t.id == tid && t.userId == u)

/-- db.py update_transaction: overwrites the mutable fields of the rows
matched by id and owner. -/
def update_transaction (s : Store) (u : Nat) (tid : Nat) (movement : String)
    (amount : Int) (category : Option String) (memo : Option String) : Store :=
  { s with transactions := s.transactions.map (fun t =>
      if t.id = tid ∧ t.userId = u
      then { t with movement := movement, amount := amount, category := category, memo := memo }
      else t) }

/-- db.py delete_transaction: deletes the rows matched by id and owner. -/
def delete_transaction (s : Store) (u : Nat) (tid : Nat) : Store :=
  { s with transactions := s.transactions.filter (fun t => ¬ (t.id = tid ∧ t.userId = u)) }

/-! ### fetch_category_totals of db.py

The result is a Python dict; it is modelled as an association list with
the dict assignment semantics: an assignment replaces the value of an
existing key in place and otherwise appends the key.  SQLite leaves the
order in which GROUP BY groups are delivered unspecified; the grouping
below enumerates the distinct category values of the relevant rows (the
delivery order only matters when two distinct groups collide on one dict
key, which the theorems below never depend on). -/

/-- Python dict assignment d[k] = v. -/
def dictSet : List (String × Int) → String → Int → List (String × Int)
  | [], k, v => [(k, v)]
  | kv :: rest, k, v => if kv.1 = k then (k, v) :: rest else kv :: dictSet rest k v

/-- Python dict lookup d.get(k). -/
def dictGet : List (String × Int) → String → Option Int
  | [], _ => none
  | kv :: rest, k => if kv.1 = k then some kv.2 else dictGet rest k

/-- The distinct category values of a list of rows, one per GROUP BY group. -/
def distinctCats : List (Option String) → List (Option String)
  | [] => []
  | c :: cs => if c ∈ distinctCats cs then distinctCats cs else c :: distinctCats cs

/-- The dict key a group is stored under: row.category or the literal other
(Python treats both a NULL and an empty category as falsy). -/
def categoryKey : Option String → String
  | none => "other"
  | some c => if c = "" then "other" else c

/-- The rows the aggregation query of fetch_category_totals selects: the
decrease rows of the user inside the month window. -/
def monthDecreases (s : Store) (u : Nat) (y m : Nat) : List Txn :=
  let start := monthStartStr y m
  let stop := monthStartStr (nextMonth y m).1 (nextMonth y m).2
  s.transactions.filter (fun t =>
    t.userId == u && t.movement == "decrease" &&
    strLeB start t.occurredAt && strLtB t.occurredAt stop)

/-- SUM(amount) of one GROUP BY group. -/
def groupSum (ts : List Txn) (c : Option String) : Int :=
  ((ts.filter (fun t => t.category == c)).map (fun t => t.amount)).sum

/-- db.py fetch_category_totals: a dict seeded with 0 for every category of
the effective set of the user, then overwritten group by group with the
monthly decrease sums, keying a falsy category as other. -/
def fetch_category_totals (s : Store) (u : Nat) (y m : Nat) : List (String × Int) :=
  let totals0 := (get_all_categories s u).foldl (fun d c => dictSet d c.id 0) []
  let ts := monthDecreases s u y m
  (distinctCats (ts.map (fun t => t.category))).foldl
    (fun d c => dictSet d (categoryKey c) (groupSum ts c)) totals0

/-! ### Request handlers of app.py -/

/-- The validation failures of the transaction form, one per error message
of app.py. -/
inductive VError where
  | notANumber
  | nonPositiveAmount
  | invalidMovement
  | missingCategory
  | unknownCategory
  | insufficientBalance
deriving DecidableEq

/-- Outcome of a POST: the store afterwards and the error rendered back,
none meaning the mutation ran and the client was redirected. -/
structure HResult where
  store : Store
  error : Option VError
deriving DecidableEq

/-- The error_message computation of the create handler of app.py, for a
successfully parsed amount; `category` is the already-cooked local variable
of the handler (the raw field for a decrease, none otherwise). -/
def transaction_error_message (s : Store) (u : Nat) (amount : Int)
    (movement : Option String) (category : Option String) : Option VError :=
  if amount ≤ 0 then some VError.nonPositiveAmount
  else if ¬ (movement = some "increase" ∨ movement = some "decrease") then
    some VError.invalidMovement
  else if movement = some "decrease" then
    match category with
    | none => some VError.missingCategory
    | some c =>
      if c = "" then some VError.missingCategory
      else if c ∉ (get_all_categories s u).map (fun cat => cat.id) then
        some VError.unknownCategory
      else if amount > fetch_balance s u then some VError.insufficientBalance
      else none
  else none

/-- app.py transaction (POST branch): the submitted amount arrives already
parsed (none models a ValueError of int()), movement and category arrive as
the raw optional form fields. -/
def transaction_post (s : Store) (u : Nat) (now : String)
    (amountRaw : Option Int) (movement : Option String)
    (categoryField : Option String) (memoField : Option String) : HResult :=
  let category := if movement = some "decrease" then categoryField else none
  match amountRaw with
  | none => { store := s, error := some VError.notANumber }
  | some amount =>
    let error := transaction_error_message s u amount movement category
    if error = none then
      { store := insert_transaction s u now (movement.getD "") amount
          (if movement = some "decrease" then category else none) memoField,
        error := none }
    else { store := s, error := error }

/-- The reference balance of the edit form of app.py: the current balance
with the transaction under edit backed out. -/
def balance_excluding (s : Store) (u : Nat) (txn : Txn) : Int :=
  if txn.movement = "increase" then fetch_balance s u - txn.amount
  else fetch_balance s u + txn.amount

/-- The error_message computation of the edit handler of app.py, textually
the one of the create handler but checked against the balance excluding the
transaction under edit. -/
def edit_error_message (s : Store) (u : Nat) (txn : Txn) (amount : Int)
    (movement : Option String) (category : Option String) : Option VError :=
  if amount ≤ 0 then some VError.nonPositiveAmount
  else if ¬ (movement = some "increase" ∨ movement = some "decrease") then
    some VError.invalidMovement
  else if movement = some "decrease" then
    match category with
    | none => some VError.missingCategory
    | some c =>
      if c = "" then some VError.missingCategory
      else if c ∉ (get_all_categories s u).map (fun cat => cat.id) then
        some VError.unknownCategory
      else if amount > balance_excluding s u txn then some VError.insufficientBalance
      else none
  else none

/-- app.py edit_transaction (POST branch): a missing or foreign id redirects
with no change; otherwise the validation of the create form runs against
the balance excluding the transaction under edit, and acceptance overwrites
the row in place. -/
def edit_transaction_post (s : Store) (u : Nat) (tid : Nat)
    (amountRaw : Option Int) (movement : Option String)
    (categoryField : Option String) (memoField : Option String) : HResult :=
  match fetch_transaction_by_id s u tid with
  | none => { store := s, error := none }
  | some txn =>
    let category := if movement = some "decrease" then categoryField else none
    match amountRaw with
    | none => { store := s, error := some VError.notANumber }
    | some amount =>
      let error := edit_error_message s u txn amount movement category
      if error = none then
        { store := update_transaction s u tid (movement.getD "") amount
            (if movement = some "decrease" then category else none) memoField,
          error := none }
      else { store := s, error := error }

/-- app.py delete_transaction_route: deletes only when the scoped lookup
finds the row, with no validation of the resulting balance. -/
def delete_transaction_route (s : Store) (u : Nat) (tid : Nat) : Store :=
  match fetch_transaction_by_id s u tid with
  | some _ => delete_transaction s u tid
  | none => s

/-! ### Definitions taken from the wording of the specification, to be
compared with the embedded code -/

/-- Sum of the amounts of the increase transactions of one user
(wording of the specification for the balance). -/
def sumIncreases (s : Store) (u : Nat) : Int :=
  ((s.transactions.filter (fun t => t.userId == u && t.movement == "increase")).map
    (fun t => t.amount)).sum

/-- Sum of the amounts of the decrease transactions of one user
(wording of the specification for the balance). -/
def sumDecreases (s : Store) (u : Nat) : Int :=
  ((s.transactions.filter (fun t => t.userId == u && t.movement == "decrease")).map
    (fun t => t.amount)).sum

/-- The shared validation sequence exactly as the specification words it:
parse failure, then non-positive amount, then invalid movement, then (for
a decrease only) missing category, unknown category, insufficient
reference balance, reporting the first failure. -/
def validationSpec (referenceBalance : Int) (effectiveIds : List String)
    (amountParsed : Option Int) (movement : Option String)
    (category : Option String) : Option VError :=
  match amountParsed with
  | none => some VError.notANumber
  | some amount =>
    if amount ≤ 0 then some VError.nonPositiveAmount
    else if movement ≠ some "increase" ∧ movement ≠ some "decrease" then
      some VError.invalidMovement
    else if movement = some "decrease" then
      match category with
      | none => some VError.missingCategory
      | some c =>
        if c = "" then some VError.missingCategory
        else if c ∉ effectiveIds then some VError.unknownCategory
        else if amount > referenceBalance then some VError.insufficientBalance
        else none
    else none

/-! ### Concrete stores used by the closed theorems below -/

/-- The store right after init_db ran on an empty database. -/
def baseStore : Store := init_db emptyStore

/-- An increase row giving user 1 a balance of 700. -/
def incTxn700 : Txn :=
  { id := 1, userId := 1, occurredAt := "2024-01-01T00:00:00", movement := "increase",
    amount := 700, category := none, memo := none }

/-- A store where user 1 holds a single increase of 700. -/
def store700 : Store :=
  { users := [], transactions := [incTxn700], categories := baseStore.categories,
    nextTxnId := 2 }

/-- A decrease of user 1 attributed to the shared category food. -/
def foodTxn : Txn :=
  { id := 2, userId := 1, occurredAt := "2024-01-02T00:00:00", movement := "decrease",
    amount := 300, category := some "food", memo := none }

/-- A store where user 1 holds an increase of 700 and a decrease of 300. -/
def storeIncFood : Store :=
  { users := [], transactions := [incTxn700, foodTxn], categories := baseStore.categories,
    nextTxnId := 3 }

/-- A decrease of user 1 attributed to an id outside the effective set. -/
def zzzTxn : Txn :=
  { id := 1, userId := 1, occurredAt := "2024-01-05T12:00:00", movement := "decrease",
    amount := 100, category := some "zzz", memo := none }

/-- A store holding only the out-of-set decrease. -/
def storeZzz : Store :=
  { users := [], transactions := [zzzTxn], categories := baseStore.categories,
    nextTxnId := 2 }

/-- A row on the last second of December 2024. -/
def decemberTxn : Txn :=
  { id := 1, userId := 1, occurredAt := "2024-12-31T23:59:59", movement := "increase",
    amount := 500, category := none, memo := none }

/-- A row on the first second of January 2025. -/
def januaryTxn : Txn :=
  { id := 2, userId := 1, occurredAt := "2025-01-01T00:00:00", movement := "increase",
    amount := 600, category := none, memo := none }

/-- A store holding both year-boundary rows. -/
def storeDecJan : Store :=
  { users := [], transactions := [decemberTxn, januaryTxn],
    categories := baseStore.categories, nextTxnId := 3 }

/-- User 1 posts an accepted increase of 1000 on the fresh store. -/
def negAfterIncrease : Store :=
  (transaction_post baseStore 1 "2024-01-01T10:00:00" (some 1000)
    (some "increase") none none).store

/-- User 1 then posts an accepted decrease of 300 on food. -/
def negAfterDecrease : Store :=
  (transaction_post negAfterIncrease 1 "2024-01-02T10:00:00" (some 300)
    (some "decrease") (some "food") none).store

/-- User 1 finally deletes the increase through the delete route. -/
def negAfterDelete : Store := delete_transaction_route negAfterDecrease 1 1


/-! ### Theorems -/

/-! #### Totality and transitivity of the bytewise string order -/

theorem lexLeB_total : ∀ a b : List Char, lexLeB a b = true ∨ lexLeB b a = true
  | [], _ => Or.inl rfl
  | _ :: _, [] => Or.inr rfl
  | a :: as, b :: bs => by
    simp only [lexLeB]
    rcases Nat.lt_trichotomy a.toNat b.toNat with h | h | h
    · left; simp [h]
    · have h1 : ¬ a.toNat < b.toNat := by omega
      have h2 : ¬ b.toNat < a.toNat := by omega
      rcases lexLeB_total as bs with ih | ih <;> [left; right] <;> simp [h1, h2, ih]
    · right; simp [h]

theorem lexLeB_trans : ∀ a b c : List Char,
    lexLeB a b = true → lexLeB b c = true → lexLeB a c = true
  | [], _, _, _, _ => rfl
  | _ :: _, [], _, h, _ => by simp [lexLeB] at h
  | _ :: _, _ :: _, [], _, h => by simp [lexLeB] at h
  | a :: as, b :: bs, c :: cs, h₁, h₂ => by
    simp only [lexLeB] at h₁ h₂ ⊢
    rcases Nat.lt_trichotomy a.toNat c.toNat with h | h | h
    · simp [h]
    · have h1 : ¬ a.toNat < c.toNat := by omega
      have h2 : ¬ c.toNat < a.toNat := by omega
      simp only [h1, if_false, h2]
      by_cases hab : a.toNat < b.toNat
      · by_cases hbc : b.toNat < c.toNat
        · omega
        · by_cases hcb : c.toNat < b.toNat
          · simp [hbc, hcb] at h₂
          · omega
      · by_cases hba : b.toNat < a.toNat
        · simp [hab, hba] at h₁
        · have hbc1 : ¬ b.toNat < c.toNat := by omega
          have hbc2 : ¬ c.toNat < b.toNat := by omega
          simp only [hab, if_false, hba] at h₁
          simp only [hbc1, if_false, hbc2] at h₂
          exact lexLeB_trans as bs cs h₁ h₂
    · exfalso
      by_cases hab : a.toNat < b.toNat
      · by_cases hbc : b.toNat < c.toNat
        · omega
        · by_cases hcb : c.toNat < b.toNat
          · simp [hbc, hcb] at h₂
          · omega
      · by_cases hba : b.toNat < a.toNat
        · simp [hab, hba] at h₁
        · by_cases hbc : b.toNat < c.toNat
          · omega
          · by_cases hcb : c.toNat < b.toNat
            · simp [hbc, hcb] at h₂
            · omega

/-! ### Helper lemmas about the handlers -/

/-- The error_message of the create handler is the validation sequence of
the specification, run against the current balance and the effective ids,
the raw category field cooked the way the handler does. -/
theorem transaction_error_message_spec (s : Store) (u : Nat) (a : Int)
    (movement : Option String) (categoryField : Option String) :
    transaction_error_message s u a movement
        (if movement = some "decrease" then categoryField else none) =
      validationSpec (fetch_balance s u)
        ((get_all_categories s u).map (fun c => c.id)) (some a) movement categoryField := by
  by_cases h0 : a ≤ 0
  · simp [transaction_error_message, validationSpec, h0]
  · by_cases hdec : movement = some "decrease"
    · cases categoryField with
      | none => simp [transaction_error_message, validationSpec, h0, hdec]
      | some c =>
        by_cases hc : c = ""
        · simp [transaction_error_message, validationSpec, h0, hdec, hc]
        · by_cases hmem : c ∈ (get_all_categories s u).map (fun cat => cat.id)
          · by_cases hbal : a > fetch_balance s u
            · simp [transaction_error_message, validationSpec, h0, hdec, hc, hmem, hbal]
            · simp [transaction_error_message, validationSpec, h0, hdec, hc, hmem, hbal]
          · simp [transaction_error_message, validationSpec, h0, hdec, hc, hmem]
    · by_cases hinc : movement = some "increase"
      · simp [transaction_error_message, validationSpec, h0, hdec, hinc]
      · simp [transaction_error_message, validationSpec, h0, hdec, hinc]

/-- The error reported by the create handler is the validation sequence of
the specification. -/
theorem transaction_post_error (s : Store) (u : Nat) (now : String)
    (amountRaw : Option Int) (movement : Option String)
    (categoryField : Option String) (memoField : Option String) :
    (transaction_post s u now amountRaw movement categoryField memoField).error =
      validationSpec (fetch_balance s u)
        ((get_all_categories s u).map (fun c => c.id)) amountRaw movement categoryField := by
  cases amountRaw with
  | none => rfl
  | some a =>
    unfold transaction_post
    dsimp only
    rw [transaction_error_message_spec]
    cases hE : validationSpec (fetch_balance s u)
        ((get_all_categories s u).map (fun c => c.id)) (some a) movement categoryField with
    | none => rw [if_pos rfl]
    | some e => rw [if_neg (by simp)]

/-- The create handler either leaves the store untouched or reports no
error (the insert runs exactly on the no-error path). -/
theorem transaction_post_shape (s : Store) (u : Nat) (now : String)
    (amountRaw : Option Int) (movement : Option String)
    (categoryField : Option String) (memoField : Option String) :
    (transaction_post s u now amountRaw movement categoryField memoField).store = s ∨
      (transaction_post s u now amountRaw movement categoryField memoField).error = none := by
  unfold transaction_post
  cases amountRaw with
  | none => left; rfl
  | some a =>
    dsimp only
    split <;> split
    · right; rfl
    · left; rfl
    · right; rfl
    · left; rfl

/-- A rejected create leaves the store untouched. -/
theorem transaction_post_store_of_error (s : Store) (u : Nat) (now : String)
    (amountRaw : Option Int) (movement : Option String)
    (categoryField : Option String) (memoField : Option String) (e : VError)
    (h : (transaction_post s u now amountRaw movement categoryField memoField).error = some e) :
    (transaction_post s u now amountRaw movement categoryField memoField).store = s := by
  rcases transaction_post_shape s u now amountRaw movement categoryField memoField with h1 | h1
  · exact h1
  · rw [h] at h1
    exact absurd h1 (by simp)

/-- The error_message of the edit handler is the validation sequence of the
specification, run against the balance excluding the transaction under
edit. -/
theorem edit_error_message_spec (s : Store) (u : Nat) (txn : Txn) (a : Int)
    (movement : Option String) (categoryField : Option String) :
    edit_error_message s u txn a movement
        (if movement = some "decrease" then categoryField else none) =
      validationSpec (balance_excluding s u txn)
        ((get_all_categories s u).map (fun c => c.id)) (some a) movement categoryField := by
  by_cases h0 : a ≤ 0
  · simp [edit_error_message, validationSpec, h0]
  · by_cases hdec : movement = some "decrease"
    · cases categoryField with
      | none => simp [edit_error_message, validationSpec, h0, hdec]
      | some c =>
        by_cases hc : c = ""
        · simp [edit_error_message, validationSpec, h0, hdec, hc]
        · by_cases hmem : c ∈ (get_all_categories s u).map (fun cat => cat.id)
          · by_cases hbal : a > balance_excluding s u txn
            · simp [edit_error_message, validationSpec, h0, hdec, hc, hmem, hbal]
            · simp [edit_error_message, validationSpec, h0, hdec, hc, hmem, hbal]
          · simp [edit_error_message, validationSpec, h0, hdec, hc, hmem]
    · by_cases hinc : movement = some "increase"
      · simp [edit_error_message, validationSpec, h0, hdec, hinc]
      · simp [edit_error_message, validationSpec, h0, hdec, hinc]

/-- The error reported by the edit handler, when the transaction under edit
is found, is the validation sequence of the specification run against the
balance excluding it. -/
theorem edit_transaction_post_error (s : Store) (u : Nat) (tid : Nat) (txn : Txn)
    (amountRaw : Option Int) (movement : Option String)
    (categoryField : Option String) (memoField : Option String)
    (hfetch : fetch_transaction_by_id s u tid = some txn) :
    (edit_transaction_post s u tid amountRaw movement categoryField memoField).error =
      validationSpec (balance_excluding s u txn)
        ((get_all_categories s u).map (fun c => c.id)) amountRaw movement categoryField := by
  unfold edit_transaction_post
  rw [hfetch]
  cases amountRaw with
  | none => rfl
  | some a =>
    dsimp only
    rw [edit_error_message_spec]
    cases hE : validationSpec (balance_excluding s u txn)
        ((get_all_categories s u).map (fun c => c.id)) (some a) movement categoryField with
    | none => rw [if_pos rfl]
    | some e => rw [if_neg (by simp)]

/-- The edit handler either leaves the store untouched or reports no error
(the update runs exactly on the found, no-error path). -/
theorem edit_transaction_post_shape (s : Store) (u : Nat) (tid : Nat)
    (amountRaw : Option Int) (movement : Option String)
    (categoryField : Option String) (memoField : Option String) :
    (edit_transaction_post s u tid amountRaw movement categoryField memoField).store = s ∨
      (edit_transaction_post s u tid amountRaw movement categoryField memoField).error = none := by
  unfold edit_transaction_post
  cases hfetch : fetch_transaction_by_id s u tid with
  | none => left; rfl
  | some txn =>
    cases amountRaw with
    | none => left; rfl
    | some a =>
      dsimp only
      split <;> split
      · right; rfl
      · left; rfl
      · right; rfl
      · left; rfl

/-- A rejected edit leaves the store untouched. -/
theorem edit_transaction_post_store_of_error (s : Store) (u : Nat) (tid : Nat)
    (amountRaw : Option Int) (movement : Option String)
    (categoryField : Option String) (memoField : Option String) (e : VError)
    (h : (edit_transaction_post s u tid amountRaw movement categoryField memoField).error
      = some e) :
    (edit_transaction_post s u tid amountRaw movement categoryField memoField).store = s := by
  rcases edit_transaction_post_shape s u tid amountRaw movement categoryField memoField with
    h1 | h1
  · exact h1
  · rw [h] at h1
    exact absurd h1 (by simp)

/-- On an increase submission the create handler stores a null category
whatever the submitted category field was. -/
theorem transaction_post_increase_category (s : Store) (u : Nat) (now : String)
    (amountRaw : Option Int) (categoryField : Option String) (memoField : Option String) :
    (transaction_post s u now amountRaw (some "increase") categoryField memoField).store = s ∨
    ∃ amt, amountRaw = some amt ∧
      (transaction_post s u now amountRaw (some "increase") categoryField memoField).store =
        insert_transaction s u now "increase" amt none memoField := by
  unfold transaction_post
  cases amountRaw with
  | none => left; rfl
  | some a =>
    dsimp only
    have hne : ¬ ((some "increase" : Option String) = some "decrease") := by simp
    simp only [if_neg hne, Option.getD_some]
    split
    · right; exact ⟨a, rfl, rfl⟩
    · left; rfl

/-- On an increase submission the edit handler leaves every transaction of
the store either as it was or with a null category. -/
theorem edit_transaction_post_increase_category (s : Store) (u : Nat) (tid : Nat)
    (amountRaw : Option Int) (categoryField : Option String) (memoField : Option String) :
    ∀ t ∈ (edit_transaction_post s u tid amountRaw (some "increase") categoryField
        memoField).store.transactions,
      t ∈ s.transactions ∨ t.category = none := by
  unfold edit_transaction_post
  cases hfetch : fetch_transaction_by_id s u tid with
  | none => intro t ht; left; exact ht
  | some txn =>
    cases amountRaw with
    | none => intro t ht; left; exact ht
    | some a =>
      dsimp only
      have hne : ¬ ((some "increase" : Option String) = some "decrease") := by simp
      simp only [if_neg hne, Option.getD_some]
      split
      · intro t ht
        unfold update_transaction at ht
        dsimp only at ht
        rcases List.mem_map.mp ht with ⟨t0, ht0, heq⟩
        by_cases hcond : t0.id = tid ∧ t0.userId = u
        · right
          rw [if_pos hcond] at heq
          rw [← heq]
        · left
          rw [if_neg hcond] at heq
          rw [← heq]
          exact ht0
      · intro t ht; left; exact ht

/-- Claim C6: the create and edit handlers run the same validation sequence
in the same order, reporting the first failure (unparseable amount, then
non-positive amount, then invalid movement, then for a decrease only:
missing category, unknown category, insufficient reference balance — the
current balance for create, the balance excluding the transaction under
edit for edit), and on an increase the stored category is forced to null
regardless of the submitted value. -/
theorem C6_validation_order :
    (∀ (s : Store) (u : Nat) (now : String) (amountRaw : Option Int)
        (movement categoryField memoField : Option String),
      (transaction_post s u now amountRaw movement categoryField memoField).error =
        validationSpec (fetch_balance s u)
          ((get_all_categories s u).map (fun c => c.id)) amountRaw movement categoryField) ∧
    (∀ (s : Store) (u tid : Nat) (txn : Txn) (amountRaw : Option Int)
        (movement categoryField memoField : Option String),
      fetch_transaction_by_id s u tid = some txn →
      (edit_transaction_post s u tid amountRaw movement categoryField memoField).error =
        validationSpec (balance_excluding s u txn)
          ((get_all_categories s u).map (fun c => c.id)) amountRaw movement categoryField) ∧
    (∀ (s : Store) (u : Nat) (now : String) (amountRaw : Option Int)
        (categoryField memoField : Option String),
      (transaction_post s u now amountRaw (some "increase") categoryField memoField).store = s ∨
      ∃ amt, amountRaw = some amt ∧
        (transaction_post s u now amountRaw (some "increase") categoryField memoField).store =
          insert_transaction s u now "increase" amt none memoField) ∧
    (∀ (s : Store) (u tid : Nat) (amountRaw : Option Int)
        (categoryField memoField : Option String),
      ∀ t ∈ (edit_transaction_post s u tid amountRaw (some "increase") categoryField
          memoField).store.transactions,
        t ∈ s.transactions ∨ t.category = none) :=
  ⟨transaction_post_error,
   fun s u tid txn amountRaw movement categoryField memoField h =>
     edit_transaction_post_error s u tid txn amountRaw movement categoryField memoField h,
   transaction_post_increase_category,
   edit_transaction_post_increase_category⟩

/-- Witness for C6 at a concrete store: the edit conjunct applied to the
found transaction of user 1. -/
theorem C6_validation_order_witness :
    (edit_transaction_post storeIncFood 1 1 (some 50) (some "decrease")
        (some "food") none).error =
      validationSpec (balance_excluding storeIncFood 1 incTxn700)
        ((get_all_categories storeIncFood 1).map (fun c => c.id))
        (some 50) (some "decrease") (some "food") :=
  C6_validation_order.2.1 storeIncFood 1 1 incTxn700 (some 50) (some "decrease")
    (some "food") none (by decide)

/-- Claim C1: a decrease POST with a positive parsed amount and a valid
category whose amount exceeds the reference balance (the current balance
for create, the balance excluding the transaction under edit for edit) is
rejected with the insufficient-balance error and the store, in particular
its transaction list, is unchanged. -/
theorem C1_insufficient_balance_rejected (s : Store) (u : Nat) (now : String)
    (a : Int) (c : String) (memoField : Option String) (tid : Nat) (txn : Txn)
    (hpos : 0 < a) (hc : c ≠ "")
    (hvalid : c ∈ (get_all_categories s u).map (fun cat => cat.id)) :
    (a > fetch_balance s u →
      (transaction_post s u now (some a) (some "decrease") (some c) memoField).error =
          some VError.insufficientBalance ∧
      (transaction_post s u now (some a) (some "decrease") (some c) memoField).store = s) ∧
    (fetch_transaction_by_id s u tid = some txn →
      a > balance_excluding s u txn →
      (edit_transaction_post s u tid (some a) (some "decrease") (some c) memoField).error =
          some VError.insufficientBalance ∧
      (edit_transaction_post s u tid (some a) (some "decrease") (some c) memoField).store
        = s) := by
  have h0 : ¬ a ≤ 0 := by omega
  constructor
  · intro hbal
    have herr : (transaction_post s u now (some a) (some "decrease") (some c)
        memoField).error = some VError.insufficientBalance := by
      rw [transaction_post_error]
      simp [validationSpec, h0, hc, hvalid, hbal]
    exact ⟨herr, transaction_post_store_of_error s u now (some a) (some "decrease")
      (some c) memoField VError.insufficientBalance herr⟩
  · intro hfetch hbal
    have herr : (edit_transaction_post s u tid (some a) (some "decrease") (some c)
        memoField).error = some VError.insufficientBalance := by
      rw [edit_transaction_post_error s u tid txn _ _ _ _ hfetch]
      simp [validationSpec, h0, hc, hvalid, hbal]
    exact ⟨herr, edit_transaction_post_store_of_error s u tid (some a) (some "decrease")
      (some c) memoField VError.insufficientBalance herr⟩

/-- Witness for C1: with a balance of 700, posting a decrease of 1000 on
food is rejected and leaves the store unchanged, both on create and on an
edit of the increase row (whose excluded balance is 0). -/
theorem C1_insufficient_balance_rejected_witness :
    ((transaction_post store700 1 "2024-02-01T00:00:00" (some 1000) (some "decrease")
        (some "food") none).error = some VError.insufficientBalance ∧
     (transaction_post store700 1 "2024-02-01T00:00:00" (some 1000) (some "decrease")
        (some "food") none).store = store700) ∧
    ((edit_transaction_post store700 1 1 (some 1000) (some "decrease")
        (some "food") none).error = some VError.insufficientBalance ∧
     (edit_transaction_post store700 1 1 (some 1000) (some "decrease")
        (some "food") none).store = store700) :=
  ⟨(C1_insufficient_balance_rejected store700 1 "2024-02-01T00:00:00" 1000 "food" none
      1 incTxn700 (by decide) (by decide) (by decide)).1 (by decide),
   (C1_insufficient_balance_rejected store700 1 "2024-02-01T00:00:00" 1000 "food" none
      1 incTxn700 (by decide) (by decide) (by decide)).2 (by decide) (by decide)⟩

/-- The user-scoped signed sum splits into the increase sum minus the
decrease sum once every movement is one of the two legal words (the CHECK
constraint of the transactions table). -/
theorem balance_filter_split (u : Nat) :
    ∀ l : List Txn,
      (∀ t ∈ l, t.movement = "increase" ∨ t.movement = "decrease") →
      ((l.filter (fun t => t.userId == u)).map
        (fun t => if t.movement == "increase" then t.amount else -t.amount)).sum =
      ((l.filter (fun t => t.userId == u && t.movement == "increase")).map
        (fun t => t.amount)).sum -
      ((l.filter (fun t => t.userId == u && t.movement == "decrease")).map
        (fun t => t.amount)).sum
  | [], _ => by simp
  | t :: l, hwf => by
    have ih := balance_filter_split u l (fun x hx => hwf x (List.mem_cons_of_mem _ hx))
    by_cases hu : t.userId = u
    · rcases hwf t (List.mem_cons_self _ _) with hm | hm
      · simp only [List.filter_cons, hu, hm, beq_self_eq_true, if_true, Bool.and_self,
          List.map_cons, List.sum_cons, ih]
        simp [hm]
        omega
      · simp only [List.filter_cons, hu, hm, beq_self_eq_true, if_true,
          List.map_cons, List.sum_cons, ih]
        simp [hm]
        omega
    · simp only [List.filter_cons]
      have hbu : (t.userId == u) = false := by simp [hu]
      simp [hbu]
      simpa using ih

/-- Claim C2: fetch_balance is the increase sum minus the decrease sum of
the user, is 0 for a user with no transactions, and is never affected by a
row inserted for another user. -/
theorem C2_fetch_balance_sum (s : Store) (u : Nat)
    (hwf : ∀ t ∈ s.transactions, t.movement = "increase" ∨ t.movement = "decrease") :
    fetch_balance s u = sumIncreases s u - sumDecreases s u ∧
    ((∀ t ∈ s.transactions, t.userId ≠ u) → fetch_balance s u = 0) ∧
    (∀ (u2 : Nat) (now mv : String) (amt : Int) (cat memo : Option String), u2 ≠ u →
      fetch_balance (insert_transaction s u2 now mv amt cat memo) u = fetch_balance s u) := by
  refine ⟨balance_filter_split u s.transactions hwf, ?_, ?_⟩
  · intro hnone
    have hfil : s.transactions.filter (fun t => t.userId == u) = [] := by
      rw [List.filter_eq_nil_iff]
      intro t ht
      simp [hnone t ht]
    simp [fetch_balance, hfil]
  · intro u2 now mv amt cat memo hne
    have hbu : (u2 == u) = false := by simp [hne]
    simp [fetch_balance, insert_transaction, List.filter_append, hbu]

/-- Witness for C2 at a concrete store holding an increase of 700 and a
decrease of 300 for user 1. -/
theorem C2_fetch_balance_sum_witness :
    fetch_balance storeIncFood 1 = sumIncreases storeIncFood 1 - sumDecreases storeIncFood 1 :=
  (C2_fetch_balance_sum storeIncFood 1 (by decide)).1

/-- Claim C7: update_category and delete_category never touch a shared
(NULL-owner) category row, whoever calls them with whatever arguments: the
sublist of shared rows, hence the label and presence of every shared
category, is unchanged. -/
theorem C7_shared_categories_immutable (s : Store) (u : Nat) (cid lbl : String) :
    (update_category s u cid lbl).categories.filter (fun c => c.userId == none) =
      s.categories.filter (fun c => c.userId == none) ∧
    (delete_category s u cid).categories.filter (fun c => c.userId == none) =
      s.categories.filter (fun c => c.userId == none) := by
  constructor
  · show (s.categories.map _).filter _ = _
    induction s.categories with
    | nil => rfl
    | cons c cs ih =>
      by_cases hmatch : c.id = cid ∧ c.userId = some u
      · have hb : (({ c with label := lbl } : Cat).userId == none) = false := by
          simp [hmatch.2]
        have hb2 : (c.userId == none) = false := by simp [hmatch.2]
        simp only [List.map_cons, List.filter_cons, if_pos hmatch, hb, hb2]
        simpa using ih
      · simp only [List.map_cons, List.filter_cons, if_neg hmatch]
        by_cases hnull : c.userId = none
        · have hb : (c.userId == none) = true := by simp [hnull]
          simp only [hb, if_true]
          have ih2 := ih
          simp only [List.filter_map] at ih2 ⊢
          rw [ih2]
        · have hb : (c.userId == none) = false := by simp [hnull]
          simp only [hb]
          simpa using ih
  · show (s.categories.filter _).filter _ = _
    induction s.categories with
    | nil => rfl
    | cons c cs ih =>
      by_cases hmatch : c.id = cid ∧ c.userId = some u
      · have hkeep : decide (¬ (c.id = cid ∧ c.userId = some u)) = false := by
          simp only [decide_eq_false_iff_not, not_not]
          exact hmatch
        have hb : (c.userId == none) = false := by simp [hmatch.2]
        simp only [List.filter_cons, hkeep, hb]
        simpa using ih
      · have hkeep : decide (¬ (c.id = cid ∧ c.userId = some u)) = true := by
          simp only [decide_eq_true_eq]
          exact hmatch
        simp only [List.filter_cons, hkeep, if_true]
        by_cases hnull : c.userId = none
        · have hb : (c.userId == none) = true := by simp [hnull]
          simp only [List.filter_cons, hb, if_true]
          have ih2 := ih
          simp only [] at ih2 ⊢
          rw [ih2]
        · have hb : (c.userId == none) = false := by simp [hnull]
          simp only [List.filter_cons, hb]
          simpa using ih

/-- After init_db there is always at least one shared category row. -/
theorem init_db_shared_count (s : Store) :
    ((init_db s).categories.filter (fun c => c.userId == none)).length ≠ 0 := by
  unfold init_db
  by_cases h : (s.categories.filter (fun c => c.userId == none)).length = 0
  · rw [if_pos h]
    dsimp only
    rw [List.filter_append, List.length_append, h]
    decide
  · rw [if_neg h]
    exact h

/-- init_db does nothing once a shared category row exists. -/
theorem init_db_noop (s : Store)
    (h : (s.categories.filter (fun c => c.userId == none)).length ≠ 0) :
    init_db s = s := by
  unfold init_db
  rw [if_neg h]

/-- Claim C8: init_db on the empty store creates exactly one copy of the
default shared set, in display order; it is idempotent; it is a no-op on
any store already holding a shared category row; and it never deletes or
modifies existing users, transactions or categories, only ever appending
category rows. -/
theorem C8_init_db_idempotent :
    ((init_db emptyStore).categories =
      [{ id := "food", userId := none, label := "食べ物", displayOrder := 0 },
       { id := "fun", userId := none, label := "遊び", displayOrder := 1 },
       { id := "stationery", userId := none, label := "文具", displayOrder := 2 },
       { id := "oshikatsu", userId := none, label := "推し活", displayOrder := 3 },
       { id := "other", userId := none, label := "その他", displayOrder := 4 }] ∧
      (init_db emptyStore).transactions = [] ∧ (init_db emptyStore).users = []) ∧
    (∀ s : Store, init_db (init_db s) = init_db s) ∧
    (∀ s : Store, s.categories.filter (fun c => c.userId == none) ≠ [] → init_db s = s) ∧
    (∀ s : Store, (init_db s).transactions = s.transactions ∧
      (init_db s).users = s.users ∧
      ∃ tail, (init_db s).categories = s.categories ++ tail) := by
  refine ⟨by decide, fun s => init_db_noop (init_db s) (init_db_shared_count s), ?_, ?_⟩
  · intro s h
    refine init_db_noop s ?_
    intro hlen
    exact h (List.length_eq_zero.mp hlen)
  · intro s
    unfold init_db
    by_cases h : (s.categories.filter (fun c => c.userId == none)).length = 0
    · rw [if_pos h]
      exact ⟨rfl, rfl, _, rfl⟩
    · rw [if_neg h]
      exact ⟨rfl, rfl, [], by simp⟩

/-- Witness for C8: the already-initialized store is left untouched. -/
theorem C8_init_db_idempotent_witness : init_db baseStore = baseStore :=
  C8_init_db_idempotent.2.2.1 baseStore (by decide)

/-- Claim C9: delete_category rewrites the transactions of the user
referencing the id to other unconditionally; when the id names no row owned
by the user (a shared id, or a foreign one) no category row is deleted, yet
the transactions of the user are still moved. -/
theorem C9_delete_category_reassigns (s : Store) (u : Nat) (cid : String)
    (hno : ∀ c ∈ s.categories, ¬ (c.id = cid ∧ c.userId = some u)) :
    (delete_category s u cid).categories = s.categories ∧
    (∀ t ∈ s.transactions, t.userId = u → t.category = some cid →
      ({ t with category := some "other" } : Txn) ∈ (delete_category s u cid).transactions) ∧
    (∀ t ∈ s.transactions, ¬ (t.userId = u ∧ t.category = some cid) →
      t ∈ (delete_category s u cid).transactions) := by
  refine ⟨?_, ?_, ?_⟩
  · show s.categories.filter _ = _
    apply List.filter_eq_self.mpr
    intro c hc
    have := hno c hc
    simp only [decide_eq_true_eq]
    tauto
  · intro t ht hu hcat
    show _ ∈ s.transactions.map _
    refine List.mem_map.mpr ⟨t, ht, ?_⟩
    rw [if_pos ⟨hu, hcat⟩]
  · intro t ht hne
    show _ ∈ s.transactions.map _
    refine List.mem_map.mpr ⟨t, ht, ?_⟩
    rw [if_neg hne]

/-- Witness for C9: deleting the shared id food for user 1 leaves every
category row in place and still moves the food decrease to other. -/
theorem C9_delete_category_reassigns_witness :
    (delete_category storeIncFood 1 "food").categories = storeIncFood.categories ∧
    ({ foodTxn with category := some "other" } : Txn) ∈
      (delete_category storeIncFood 1 "food").transactions :=
  ⟨(C9_delete_category_reassigns storeIncFood 1 "food" (by decide)).1,
   (C9_delete_category_reassigns storeIncFood 1 "food" (by decide)).2.1 foodTxn
     (by decide) (by decide) (by decide)⟩

/-- Claim C10: the delete route performs no balance validation: user 1
posts an accepted increase of 1000 and an accepted decrease of 300 on the
fresh store, then deletes the increase through the delete route; the
deletion succeeds and the balance is left negative, so a non-negative
balance is not an invariant preserved by every operation. -/
theorem C10_delete_allows_negative_balance :
    (transaction_post baseStore 1 "2024-01-01T10:00:00" (some 1000)
        (some "increase") none none).error = none ∧
    (transaction_post negAfterIncrease 1 "2024-01-02T10:00:00" (some 300)
        (some "decrease") (some "food") none).error = none ∧
    fetch_balance negAfterDecrease 1 = 700 ∧
    negAfterDelete.transactions.length = 1 ∧
    fetch_balance negAfterDelete 1 = -300 ∧
    fetch_balance negAfterDelete 1 < 0 := by decide

/-- Claim C3 contradicted by the code as a concrete run shows: the
categories table created by init_db has no uniqueness constraint, so
add_category with the id food, already in the effective set of user 1,
inserts a second row rather than being ignored as a duplicate: the row
count grows from 5 to 6 and the effective set of the user lists food
twice (the sqlite3.IntegrityError handler of app.py meant to swallow
duplicates can never fire). -/
theorem C3_add_category_duplicate_inserts :
    baseStore.categories.length = 5 ∧
    (add_category baseStore 1 "food" "dup").categories.length = 6 ∧
    ((get_all_categories (add_category baseStore 1 "food" "dup") 1).map
        (fun c => c.id)).count "food" = 2 := by decide

/-- Claim C5: fetch_transactions_by_month returns exactly the rows of the
user whose occurred_at lies in the half-open month window, ascending by
occurred_at, with December rolling to January of the next year; concretely
for month 2024-12 a row at 2024-12-31T23:59:59 is returned and one at
2025-01-01T00:00:00 is not. -/
theorem C5_fetch_transactions_by_month :
    (∀ (s : Store) (u y m : Nat) (t : Txn),
      t ∈ fetch_transactions_by_month s u y m ↔
        (t ∈ s.transactions ∧ t.userId = u ∧
          strLe (monthStartStr y m) t.occurredAt ∧
          strLt t.occurredAt (monthStartStr (nextMonth y m).1 (nextMonth y m).2))) ∧
    (∀ (s : Store) (u y m : Nat),
      List.Pairwise txnLe (fetch_transactions_by_month s u y m)) ∧
    (∀ y : Nat, nextMonth y 12 = (y + 1, 1)) ∧
    (monthStartStr 2024 12 = "2024-12-01T00:00:00" ∧
      monthStartStr (nextMonth 2024 12).1 (nextMonth 2024 12).2 = "2025-01-01T00:00:00") ∧
    (decemberTxn ∈ fetch_transactions_by_month storeDecJan 1 2024 12 ∧
      januaryTxn ∉ fetch_transactions_by_month storeDecJan 1 2024 12) := by
  refine ⟨?_, ?_, fun y => rfl, by decide, by decide⟩
  · intro s u y m t
    simp only [fetch_transactions_by_month, List.mem_insertionSort, List.mem_filter,
      Bool.and_eq_true, beq_iff_eq, strLe, strLt, and_assoc]
  · intro s u y m
    haveI : IsTotal Txn txnLe := ⟨fun _ _ => lexLeB_total _ _⟩
    haveI : IsTrans Txn txnLe := ⟨fun _ _ _ h₁ h₂ => lexLeB_trans _ _ _ h₁ h₂⟩
    exact List.sorted_insertionSort txnLe _

/-! ### Dict lemmas for fetch_category_totals -/

theorem dictGet_dictSet_self (d : List (String × Int)) (k : String) (v : Int) :
    dictGet (dictSet d k v) k = some v := by
  induction d with
  | nil => simp [dictSet, dictGet]
  | cons kv rest ih =>
    by_cases h : kv.1 = k
    · simp [dictSet, dictGet, h]
    · simp [dictSet, dictGet, h, ih]

theorem dictGet_dictSet_ne (d : List (String × Int)) (k k2 : String) (v : Int)
    (h : k2 ≠ k) : dictGet (dictSet d k v) k2 = dictGet d k2 := by
  induction d with
  | nil => simp [dictSet, dictGet, Ne.symm h]
  | cons kv rest ih =>
    by_cases h1 : kv.1 = k
    · simp [dictSet, dictGet, h1, Ne.symm h]
    · simp [dictSet, dictGet, h1, ih]

/-- Folding dict assignments keyed and valued by functions of the elements:
the last writer of a key wins, keys never written fall through. -/
theorem dictGet_foldl_dictSet {α : Type} (key : α → String) (val : α → Int) :
    ∀ (l : List α) (d0 : List (String × Int)) (k : String),
      dictGet (l.foldl (fun d c => dictSet d (key c) (val c)) d0) k =
        (match l.reverse.find? (fun c => key c == k) with
         | some c => some (val c)
         | none => dictGet d0 k)
  | [], d0, k => by simp
  | c :: cs, d0, k => by
    rw [List.foldl_cons, dictGet_foldl_dictSet key val cs (dictSet d0 (key c) (val c)) k]
    rw [List.reverse_cons, List.find?_append]
    cases hfind : cs.reverse.find? (fun x => key x == k) with
    | some x => simp [hfind]
    | none =>
      by_cases hk : key c = k
      · simp [hfind, hk, dictGet_dictSet_self]
      · simp [hfind, hk, dictGet_dictSet_ne d0 (key c) k (val c) (fun hh => hk hh.symm)]

/-- Over pairwise distinct keys, searching the reversed list finds the same
entry as searching forwards. -/
theorem find?_reverse_of_nodup_keys {α : Type} (key : α → String) (k : String) :
    ∀ l : List α, (l.map key).Nodup →
      l.reverse.find? (fun c => key c == k) = l.find? (fun c => key c == k)
  | [], _ => rfl
  | c :: cs, hnd => by
    have hkc : key c ∉ cs.map key := (List.nodup_cons.mp (by simpa using hnd)).1
    have hnd2 : (cs.map key).Nodup := (List.nodup_cons.mp (by simpa using hnd)).2
    rw [List.reverse_cons, List.find?_append,
      find?_reverse_of_nodup_keys key k cs hnd2]
    by_cases hk : key c = k
    · have hnone : cs.find? (fun x => key x == k) = none := by
        rw [List.find?_eq_none]
        intro x hx
        simp only [beq_iff_eq]
        intro hxx
        exact hkc (by rw [hk, ← hxx]; exact List.mem_map_of_mem key hx)
      simp [hnone, hk]
    · simp [hk]

theorem mem_distinctCats (c0 : Option String) :
    ∀ l : List (Option String), c0 ∈ distinctCats l ↔ c0 ∈ l
  | [] => Iff.rfl
  | c :: cs => by
    unfold distinctCats
    by_cases h : c ∈ distinctCats cs
    · rw [if_pos h, mem_distinctCats c0 cs, List.mem_cons]
      constructor
      · exact fun hh => Or.inr hh
      · rintro (rfl | hh)
        · exact (mem_distinctCats c0 cs).mp h
        · exact hh
    · rw [if_neg h, List.mem_cons, List.mem_cons, mem_distinctCats c0 cs]

theorem nodup_distinctCats : ∀ l : List (Option String), (distinctCats l).Nodup
  | [] => List.nodup_nil
  | c :: cs => by
    unfold distinctCats
    by_cases h : c ∈ distinctCats cs
    · rw [if_pos h]
      exact nodup_distinctCats cs
    · rw [if_neg h]
      exact List.nodup_cons.mpr ⟨h, nodup_distinctCats cs⟩

/-- The seed dict of fetch_category_totals holds 0 exactly at the ids of
the listed categories (falling through below the seed otherwise). -/
theorem dictGet_totals_init (k : String) :
    ∀ (cats : List Cat) (d0 : List (String × Int)),
      dictGet (cats.foldl (fun d c => dictSet d c.id 0) d0) k =
        if k ∈ cats.map (fun c => c.id) then some 0 else dictGet d0 k
  | [], d0 => by simp
  | c :: cs, d0 => by
    rw [List.foldl_cons, dictGet_totals_init k cs (dictSet d0 c.id 0)]
    by_cases hmem : k ∈ cs.map (fun c => c.id)
    · simp [hmem]
    · by_cases hk : c.id = k
      · simp [hmem, hk, dictGet_dictSet_self]
      · simp [hmem, Ne.symm hk, dictGet_dictSet_ne d0 c.id k 0 (fun hh => hk hh.symm)]

/-- Claim C4 corrected: when every decrease of the user in the month window
carries a non-null, non-empty category, the totals dict has an entry for
every key that is an effective category id or a used category id, holding
the monthly decrease sum of exactly that id (0 for an effective id unused
that month), and no other entry; in particular a decrease with an id
outside the effective set appears under its own extra key, not under
other. -/
theorem C4_category_totals_amended (s : Store) (u y m : Nat)
    (H : ∀ t ∈ monthDecreases s u y m, t.category ≠ none ∧ t.category ≠ some "")
    (k : String) :
    dictGet (fetch_category_totals s u y m) k =
      if k ∈ (get_all_categories s u).map (fun c => c.id) ∨
          some k ∈ (monthDecreases s u y m).map (fun t => t.category)
      then some (groupSum (monthDecreases s u y m) (some k))
      else none := by
  have hsub : ∀ c0 ∈ distinctCats ((monthDecreases s u y m).map (fun t => t.category)),
      ∃ cc, c0 = some cc ∧ cc ≠ "" := by
    intro c0 hc0
    have hc0m : c0 ∈ (monthDecreases s u y m).map (fun t => t.category) :=
      (mem_distinctCats c0 _).mp hc0
    rcases List.mem_map.mp hc0m with ⟨t, ht, rfl⟩
    rcases H t ht with ⟨h1, h2⟩
    rcases Option.ne_none_iff_exists.mp h1 with ⟨cc, hcc⟩
    exact ⟨cc, hcc.symm, fun hemp => h2 (by rw [← hcc, hemp])⟩
  have hnd : ((distinctCats ((monthDecreases s u y m).map (fun t => t.category))).map
      categoryKey).Nodup := by
    apply (nodup_distinctCats _).map_on
    intro x hx y hy hxy
    rcases hsub x hx with ⟨cx, rfl, hcx⟩
    rcases hsub y hy with ⟨cy, rfl, hcy⟩
    simp only [categoryKey, if_neg hcx, if_neg hcy] at hxy
    rw [hxy]
  unfold fetch_category_totals
  dsimp only
  rw [dictGet_foldl_dictSet categoryKey (groupSum (monthDecreases s u y m)),
    find?_reverse_of_nodup_keys categoryKey k _ hnd]
  cases hfind : (distinctCats ((monthDecreases s u y m).map (fun t => t.category))).find?
      (fun c => categoryKey c == k) with
  | some c0 =>
    have hmemdl : c0 ∈ distinctCats ((monthDecreases s u y m).map (fun t => t.category)) :=
      List.mem_of_find?_eq_some hfind
    have hp : (categoryKey c0 == k) = true := (List.find?_eq_some.mp hfind).1
    rcases hsub c0 hmemdl with ⟨cc, rfl, hcc⟩
    have hck : cc = k := by
      simpa only [categoryKey, if_neg hcc, beq_iff_eq] using hp
    subst hck
    have hused : some cc ∈ (monthDecreases s u y m).map (fun t => t.category) :=
      (mem_distinctCats _ _).mp hmemdl
    rw [if_pos (Or.inr hused)]
  | none =>
    have hnotused : some k ∉ (monthDecreases s u y m).map (fun t => t.category) := by
      intro hmem
      have hdl : some k ∈ distinctCats ((monthDecreases s u y m).map (fun t => t.category)) :=
        (mem_distinctCats _ _).mpr hmem
      rcases hsub (some k) hdl with ⟨cc, hcc, hccne⟩
      have hkcc : k = cc := Option.some.inj hcc
      have hkne : k ≠ "" := hkcc ▸ hccne
      have hnf := List.find?_eq_none.mp hfind (some k) hdl
      apply hnf
      simp [categoryKey, hkne]
    rw [dictGet_totals_init]
    by_cases hid : k ∈ (get_all_categories s u).map (fun c => c.id)
    · rw [if_pos hid, if_pos (Or.inl hid)]
      have hnil : (monthDecreases s u y m).filter (fun t => t.category == some k) = [] := by
        rw [List.filter_eq_nil_iff]
        intro t ht
        simp only [beq_iff_eq]
        intro hcat
        exact hnotused (by rw [← hcat]; exact List.mem_map_of_mem _ ht)
      unfold groupSum
      rw [hnil]
      rfl
    · rw [if_neg hid, if_neg ?h]
      · rfl
      · rintro (h | h)
        · exact hid h
        · exact hnotused h

/-- Counterexample to C4 as stated: with a monthly decrease of 100
attributed to the id zzz, which is not in the effective set, the claim
would count the 100 under other; the code instead leaves other at 0 and
files the 100 under the extra key zzz. -/
theorem C4_category_totals_counterexample :
    dictGet (fetch_category_totals storeZzz 1 2024 1) "other" = some 0 ∧
    dictGet (fetch_category_totals storeZzz 1 2024 1) "zzz" = some 100 ∧
    ¬ dictGet (fetch_category_totals storeZzz 1 2024 1) "other" = some 100 := by decide

/-- Witness for the amended C4 at a concrete store: the food entry holds
the monthly food decrease sum. -/
theorem C4_category_totals_amended_witness :
    dictGet (fetch_category_totals storeIncFood 1 2024 1) "food" =
      (if "food" ∈ (get_all_categories storeIncFood 1).map (fun c => c.id) ∨
          some "food" ∈ (monthDecreases storeIncFood 1 2024 1).map (fun t => t.category)
       then some (groupSum (monthDecreases storeIncFood 1 2024 1) (some "food"))
       else none) :=
  C4_category_totals_amended storeIncFood 1 2024 1 (by decide) "food"
